import Mathlib

/-!
# gymwise: the exercise-card page extractor

A shallow embedding of `src/scraper_client/page_function.js` and the
properties of its `pageFunction`.

The program runs inside a loaded page and uses three things of its host:
the jQuery handle bound to the page's DOM, the request URL and an
info-level logger.  They are modelled as follows.

* A string is a Lean `String`.  Every character that `String.prototype.trim`
  strips lies in the Basic Multilingual Plane, so trimming character by
  character agrees with trimming UTF-16 code unit by code unit.
* The DOM is a forest of `Node`s: text, comment and element nodes.  An
  element carries its local name, its class list, its attributes and its
  children.
* A jQuery object is the list of its matched nodes, in document order.
* The logger is the list of the info lines emitted so far.
-/

namespace Gymwise

/-! ## Strings -/

/-- The characters removed by `String.prototype.trim`: the ECMAScript
`WhiteSpace` and `LineTerminator` productions. -/
def isWhiteSpace (c : Char) : Bool :=
  c.toNat = 0x0009 || c.toNat = 0x000A || c.toNat = 0x000B || c.toNat = 0x000C ||
  c.toNat = 0x000D || c.toNat = 0x0020 || c.toNat = 0x00A0 || c.toNat = 0x1680 ||
  (0x2000 ≤ c.toNat && c.toNat ≤ 0x200A) ||
  c.toNat = 0x2028 || c.toNat = 0x2029 || c.toNat = 0x202F || c.toNat = 0x205F ||
  c.toNat = 0x3000 || c.toNat = 0xFEFF

/-- Trimming a character sequence: drop the leading, then the trailing
white space. -/
def trimChars (l : List Char) : List Char :=
  (l.dropWhile isWhiteSpace).rdropWhile isWhiteSpace

/-- The method `s.trim()`. -/
def trim (s : String) : String := ⟨trimChars s.data⟩

/-- The sum `s + v` where `v` is a string or `undefined`: string concatenation after
`ToString`, which renders `undefined` as the text `undefined`. -/
def plus (s : String) : Option String → String
  | some v => s ++ v
  | none => s ++ "undefined"

/-- The call `v?.trim()` on a value that is a string or `undefined`. -/
def optTrim : Option String → Option String
  | some v => some (trim v)
  | none => none

/-! ## The DOM -/

/-- A DOM node. -/
inductive Node where
  | text (data : String)
  | comment (data : String)
  | element (tag : String) (classes : List String)
      (attrs : List (String × String)) (children : List Node)

mutual
/-- The proper descendants of a node, in document order. -/
def Node.descendants : Node → List Node
  | .text _ => []
  | .comment _ => []
  | .element _ _ _ cs => inclusive cs
/-- The nodes of a forest with all their descendants, in document order. -/
def inclusive : List Node → List Node
  | [] => []
  | n :: ns => n :: (n.descendants ++ inclusive ns)
end

mutual
/-- The `textContent` of a node: the data of its text descendants, in order. -/
def Node.textContent : Node → String
  | .text d => d
  | .comment _ => ""
  | .element _ _ _ cs => textContents cs
/-- The concatenated `textContent` of a list of nodes. -/
def textContents : List Node → String
  | [] => ""
  | n :: ns => n.textContent ++ textContents ns
end

/-- The method `getAttribute(name)`: the value of the attribute, if the node has it. -/
def Node.getAttribute (name : String) : Node → Option String
  | .element _ _ attrs _ => (attrs.find? (fun a => a.1 == name)).map Prod.snd
  | _ => none

/-- A compound selector `tag.class1.class2...`. -/
structure Selector where
  tag : String
  classes : List String

/-- Whether a node is an element selected by the compound selector. -/
def Selector.selects (sel : Selector) : Node → Bool
  | .element t cls _ _ => t == sel.tag && sel.classes.all (fun c => cls.contains c)
  | _ => false

/-! ## jQuery -/

/-- A jQuery object: its matched nodes, in document order. -/
abbrev JQuery := List Node

/-- The call `$(selector)` on a document: every element of the page that the
selector selects, in document order. -/
def query (document : List Node) (sel : Selector) : JQuery :=
  (inclusive document).filter sel.selects

/-- The method `.find(selector)`: the selected descendants of the matched nodes.  (It is
only applied to one-element sets here, where no duplicate can arise.) -/
def JQuery.find (s : JQuery) (sel : Selector) : JQuery :=
  s.flatMap (fun n => n.descendants.filter sel.selects)

/-- The method `.first()`: the first matched node, if any. -/
def JQuery.first (s : JQuery) : JQuery := s.take 1

/-- The method `.eq(i)` for a non-negative index: the `i`-th matched node, if any. -/
def JQuery.eq (s : JQuery) (i : Nat) : JQuery :=
  match s.get? i with
  | some n => [n]
  | none => []

/-- The method `.text()`: the combined text contents of every matched node. -/
def JQuery.text (s : JQuery) : String := textContents s

/-- The method `.attr(name)`: the attribute of the first matched node, `undefined` when
the set is empty or the node lacks the attribute. -/
def JQuery.attr (s : JQuery) (name : String) : Option String :=
  match s with
  | [] => none
  | n :: _ => n.getAttribute name

/-! ## The program -/

/-- One returned record. -/
structure Record where
  url : String
  exerciseName : String
  muscleGroup : String
  equipment : String
  description : String
  imageUrl : String
deriving DecidableEq

/-- What `pageFunction` receives: the document behind `context.jQuery`,
`context.request.url` and the lines `context.log` has emitted so far. -/
structure Context where
  document : List Node
  url : String
  log : List String

/-- The mutable state of one call: the logger's lines and `results`. -/
structure State where
  log : List String
  results : List Record
deriving DecidableEq

/-- The selector of a card, `a.w-full.border.rounded-xl.bg-white`. -/
def cardSelector : Selector := ⟨"a", ["w-full", "border", "rounded-xl", "bg-white"]⟩

/-- The selector of the title, `p.text-xl\/6`: a `p` of class `text-xl/6`. -/
def titleSelector : Selector := ⟨"p", ["text-xl/6"]⟩

/-- The selector of the label spans, `span.text-base\/6`. -/
def labelSelector : Selector := ⟨"span", ["text-base/6"]⟩

/-- The selector of the description, `p.text-sm\/5`. -/
def descriptionSelector : Selector := ⟨"p", ["text-sm/5"]⟩

/-- The selector of the image, `img`. -/
def imageSelector : Selector := ⟨"img", []⟩

/-- The record built from one card (lines 8-16 and 20-27). -/
def extract (element : Node) : Record :=
  let el : JQuery := [element]
  let url := plus "https://www.jefit.com" (optTrim (el.attr "href"))
  let exerciseName := trim (el.find titleSelector).first.text
  let spans := el.find labelSelector
  let muscleGroup := trim (spans.eq 0).text
  let equipment := trim (spans.eq 1).text
  let description := trim (el.find descriptionSelector).text
  let imageUrl := plus "https://www.jefit.com" (optTrim ((el.find imageSelector).attr "src"))
  { url, exerciseName, muscleGroup, equipment, description, imageUrl }

/-- The callback of `.each` (lines 7-28): extract, log, push. -/
def eachCard (st : State) (element : Node) : State :=
  let r := extract element
  { log := st.log ++ ["Done for URL: " ++ r.url], results := st.results ++ [r] }

/-- The state when the loop is entered (lines 3 and 5): `results` is empty
and the page line has been logged. -/
def start (context : Context) : State :=
  { log := context.log ++ ["SCRAPING PAGE: " ++ context.url], results := [] }

/-- The state after the first `k` matched cards have been processed. -/
def after (context : Context) (k : Nat) : State :=
  ((query context.document cardSelector).take k).foldl eachCard (start context)

/-- The function `pageFunction`: the logger's final contents and the returned array. -/
def pageFunction (context : Context) : State :=
  (query context.document cardSelector).foldl eachCard (start context)

/-! ## Sample pages -/

/-- A card with every sub-element present. -/
def benchCard : Node :=
  .element "a" ["w-full", "border", "rounded-xl", "bg-white"] [("href", "/exercise/123")]
    [ .element "img" [] [("src", " /img/1.png ")] [],
      .element "p" ["text-xl/6"] [] [.text "  Bench Press  "],
      .element "span" ["text-base/6"] [] [.text "Chest"],
      .element "span" ["text-base/6"] [] [.text "Barbell"],
      .element "span" ["text-base/6"] [] [.text "Beginner"],
      .element "p" ["text-sm/5"] [] [.text " Lie on a bench. "] ]

/-- A card with no attribute and no child. -/
def bareCard : Node :=
  .element "a" ["w-full", "border", "rounded-xl", "bg-white"] [] []

/-- A card with an absolute link and two description paragraphs. -/
def squatCard : Node :=
  .element "a" ["bg-white", "w-full", "border", "rounded-xl"] [("href", "https://a.b/c")]
    [ .element "p" ["text-sm/5"] [] [.text "Stand up."],
      .element "p" ["text-sm/5"] [] [.text "Sit down."] ]

/-- A page with two cards and a link that is not a card. -/
def samplePage : List Node :=
  [ .element "html" [] []
      [ .element "body" [] []
          [ .element "a" ["border"] [("href", "/")] [.text "Home"],
            .element "div" ["grid"] [] [benchCard, .comment "next", bareCard] ] ] ]

/-- A call on the sample page. -/
def sampleContext : Context := ⟨samplePage, "https://www.jefit.com/exercises", []⟩

/-- A call on a page whose only card is `squatCard`. -/
def squatContext : Context := ⟨[squatCard], "https://www.jefit.com/exercises?page=2", ["ready"]⟩

/-- A call on a page whose only card is `bareCard`. -/
def bareContext : Context := ⟨[.element "div" [] [] [bareCard]], "", []⟩

/-! ## Trimmed strings -/

/-- A string with no leading and no trailing white space. -/
def isTrimmed (s : String) : Bool :=
  s.data.head?.all (fun c => !isWhiteSpace c) && s.data.getLast?.all (fun c => !isWhiteSpace c)

/-- A sequence made of white space only (the empty one included). -/
def isBlank (s : List Char) : Bool := s.all isWhiteSpace

/-- The specification of trimming: `t` is `s` with its leading and trailing
white space removed and nothing else changed. -/
def StripsTo (s t : String) : Prop :=
  isTrimmed t = true ∧
    ∃ pre post : List Char, s.data = pre ++ t.data ++ post ∧ isBlank pre = true ∧ isBlank post = true

/-! ## Trimming -/

section Trimming

variable {α : Type} (p : α → Bool)

theorem head?_rdropWhile_dropWhile (l : List α) :
    ((l.dropWhile p).rdropWhile p).head?.all (fun c => !p c) = true := by
  have hpre := List.rdropWhile_prefix p (l.dropWhile p)
  have hhead := List.head?_dropWhile_not p l
  cases hr : (l.dropWhile p).rdropWhile p with
  | nil => simp
  | cons a t =>
    rw [hr] at hpre
    obtain ⟨u, hu⟩ := hpre
    rw [← hu] at hhead
    simpa using hhead

theorem getLast?_rdropWhile (l : List α) :
    (l.rdropWhile p).getLast?.all (fun c => !p c) = true := by
  cases hr : l.rdropWhile p with
  | nil => simp
  | cons a t =>
    have hne : l.rdropWhile p ≠ [] := by simp [hr]
    have h := List.rdropWhile_last_not p l hne
    have e : (l.rdropWhile p).getLast? = some ((l.rdropWhile p).getLast hne) :=
      List.getLast?_eq_getLast _ hne
    rw [← hr, e]
    simpa using h

theorem dropWhile_eq_self_of_head? (l : List α)
    (h : l.head?.all (fun c => !p c) = true) : l.dropWhile p = l := by
  cases l with
  | nil => rfl
  | cons a t =>
    have ha : p a = false := by simpa using h
    simp [List.dropWhile, ha]

theorem rdropWhile_eq_self_of_getLast? (l : List α)
    (h : l.getLast?.all (fun c => !p c) = true) : l.rdropWhile p = l := by
  rw [List.rdropWhile_eq_self_iff]
  intro hl
  rw [List.getLast?_eq_getLast _ hl] at h
  simpa using h

theorem rdropWhile_append_rtakeWhile (l : List α) :
    l.rdropWhile p ++ l.rtakeWhile p = l := by
  unfold List.rdropWhile List.rtakeWhile
  rw [← List.reverse_append, List.takeWhile_append_dropWhile, List.reverse_reverse]

end Trimming

theorem isTrimmed_trim (s : String) : isTrimmed (trim s) = true := by
  simp only [isTrimmed, trim, trimChars, Bool.and_eq_true]
  exact ⟨head?_rdropWhile_dropWhile isWhiteSpace s.data, getLast?_rdropWhile isWhiteSpace _⟩

theorem trim_eq_self_of_isTrimmed (s : String) (h : isTrimmed s = true) : trim s = s := by
  simp only [isTrimmed, Bool.and_eq_true] at h
  show String.mk (trimChars s.data) = s
  unfold trimChars
  rw [dropWhile_eq_self_of_head? isWhiteSpace s.data h.1,
    rdropWhile_eq_self_of_getLast? isWhiteSpace s.data h.2]

theorem trim_eq_self_iff (s : String) : trim s = s ↔ isTrimmed s = true :=
  ⟨fun h => h ▸ isTrimmed_trim s, trim_eq_self_of_isTrimmed s⟩

/-- What `trim` removes: a white-space prefix and a white-space suffix, and
nothing else. -/
theorem trim_decompose (s : String) :
    ∃ pre post : List Char, s.data = pre ++ (trim s).data ++ post ∧
      isBlank pre = true ∧ isBlank post = true := by
  refine ⟨s.data.takeWhile isWhiteSpace, (s.data.dropWhile isWhiteSpace).rtakeWhile isWhiteSpace,
    ?_, ?_, ?_⟩
  · show s.data = _ ++ trimChars s.data ++ _
    unfold trimChars
    rw [List.append_assoc, rdropWhile_append_rtakeWhile, List.takeWhile_append_dropWhile]
  · simp only [isBlank, List.all_eq_true]
    intro c hc
    exact List.mem_takeWhile_imp hc
  · simp only [isBlank, List.all_eq_true]
    intro c hc
    exact List.mem_rtakeWhile_imp hc

/-- Appending a trimmed string to a non-empty trimmed string gives a trimmed string. -/
theorem isTrimmed_append (a b : String) (ha : isTrimmed a = true) (hb : isTrimmed b = true)
    (hne : a.data ≠ []) : isTrimmed (a ++ b) = true := by
  simp only [isTrimmed, Bool.and_eq_true, String.data_append] at *
  obtain ⟨x, t, hx⟩ := List.exists_cons_of_ne_nil hne
  constructor
  · rw [hx] at ha ⊢
    simpa using ha.1
  · by_cases hbn : b.data = []
    · rw [hbn, List.append_nil]
      exact ha.2
    · rw [List.getLast?_append_of_ne_nil _ hbn]
      exact hb.2

/-! ## The loop -/

theorem find_singleton (n : Node) (sel : Selector) :
    JQuery.find [n] sel = n.descendants.filter sel.selects := by
  simp [JQuery.find]

theorem textContents_singleton (n : Node) : textContents [n] = n.textContent := by
  simp [textContents]

theorem foldl_eachCard (cards : List Node) (st : State) :
    cards.foldl eachCard st =
      { log := st.log ++ cards.map (fun c => "Done for URL: " ++ (extract c).url),
        results := st.results ++ cards.map extract } := by
  induction cards generalizing st with
  | nil => simp
  | cons c cs ih => simp [ih, eachCard]

theorem pageFunction_eq (context : Context) :
    pageFunction context =
      { log := context.log ++ ("SCRAPING PAGE: " ++ context.url) ::
          (query context.document cardSelector).map (fun c => "Done for URL: " ++ (extract c).url),
        results := (query context.document cardSelector).map extract } := by
  simp [pageFunction, start, foldl_eachCard]

theorem results_get? (context : Context) (i : Nat) (card : Node)
    (h : (query context.document cardSelector).get? i = some card) :
    (pageFunction context).results.get? i = some (extract card) := by
  simp [pageFunction_eq, List.get?_eq_getElem?] at h ⊢
  exact ⟨card, h, rfl⟩

theorem after_eq (context : Context) (k : Nat) :
    after context k =
      { log := context.log ++ ("SCRAPING PAGE: " ++ context.url) ::
          ((query context.document cardSelector).take k).map
            (fun c => "Done for URL: " ++ (extract c).url),
        results := ((query context.document cardSelector).take k).map extract } := by
  simp [after, start, foldl_eachCard]

theorem stripsTo_trim (s : String) : StripsTo s (trim s) :=
  ⟨isTrimmed_trim s, trim_decompose s⟩

theorem isTrimmed_plus (v : Option String) :
    isTrimmed (plus "https://www.jefit.com" (optTrim v)) = true := by
  cases v with
  | none => decide
  | some v =>
    exact isTrimmed_append "https://www.jefit.com" (trim v) (by decide) (isTrimmed_trim v)
      (by decide)

/-! ## The fields of a record -/

theorem extract_url (card : Node) :
    (extract card).url = plus "https://www.jefit.com" (optTrim (card.getAttribute "href")) := rfl

theorem extract_exerciseName (card : Node) :
    (extract card).exerciseName =
      trim (textContents ((card.descendants.filter titleSelector.selects).take 1)) := by
  simp [extract, find_singleton, JQuery.first, JQuery.text]

theorem extract_muscleGroup (card : Node) :
    (extract card).muscleGroup =
      trim (JQuery.text (JQuery.eq (card.descendants.filter labelSelector.selects) 0)) := by
  simp [extract, find_singleton]

theorem extract_equipment (card : Node) :
    (extract card).equipment =
      trim (JQuery.text (JQuery.eq (card.descendants.filter labelSelector.selects) 1)) := by
  simp [extract, find_singleton]

theorem extract_description (card : Node) :
    (extract card).description =
      trim (textContents (card.descendants.filter descriptionSelector.selects)) := by
  simp [extract, find_singleton, JQuery.text]

theorem extract_imageUrl (card : Node) :
    (extract card).imageUrl =
      plus "https://www.jefit.com"
        (optTrim (JQuery.attr (card.descendants.filter imageSelector.selects) "src")) := by
  simp [extract, find_singleton]

/-! ## The claims -/

/-- C1: on a page with exactly `N` elements matching the card selector,
`pageFunction` returns `N` records, the `i`-th of them extracted from the
`i`-th matching card in document order; with `N = 0` the result is empty. -/
theorem pageFunction_one_record_per_card (context : Context) (N : Nat)
    (hN : (query context.document cardSelector).length = N) :
    (pageFunction context).results.length = N ∧
    (∀ i, i < N → ∃ card, (query context.document cardSelector).get? i = some card ∧
      (pageFunction context).results.get? i = some (extract card)) ∧
    (N = 0 → (pageFunction context).results = []) := by
  refine ⟨by simp [pageFunction_eq, hN], ?_, ?_⟩
  · intro i hi
    have hlt : i < (query context.document cardSelector).length := hN ▸ hi
    refine ⟨(query context.document cardSelector).get ⟨i, hlt⟩, List.get?_eq_get hlt, ?_⟩
    exact results_get? context i _ (List.get?_eq_get hlt)
  · intro h0
    have hnil : query context.document cardSelector = [] :=
      List.length_eq_zero.mp (hN.trans h0)
    simp [pageFunction_eq, hnil]

/-- The sample page has two cards, and its two records are those of the
cards in document order. -/
theorem pageFunction_one_record_per_card_witness :
    (query sampleContext.document cardSelector).length = 2 ∧
    ((pageFunction sampleContext).results.length = 2 ∧
    (∀ i, i < 2 → ∃ card, (query sampleContext.document cardSelector).get? i = some card ∧
      (pageFunction sampleContext).results.get? i = some (extract card)) ∧
    (2 = 0 → (pageFunction sampleContext).results = [])) :=
  ⟨rfl, pageFunction_one_record_per_card sampleContext 2 rfl⟩

/-- C2: the record of a card whose anchor has the `href` value `h` has the
url `https://www.jefit.com` followed by `h` stripped of its surrounding white
space and otherwise unchanged; and when the first `img` of the card has the
`src` value `s`, the imageUrl is the origin followed by `s` stripped likewise. -/
theorem url_fields_are_origin_plus_trimmed_attribute (context : Context) (i : Nat) (card : Node)
    (hcard : (query context.document cardSelector).get? i = some card) :
    ∃ r, (pageFunction context).results.get? i = some r ∧
      (∀ h, card.getAttribute "href" = some h →
        r.url = "https://www.jefit.com" ++ trim h ∧ StripsTo h (trim h)) ∧
      (∀ img s, (card.descendants.filter imageSelector.selects).head? = some img →
        img.getAttribute "src" = some s →
        r.imageUrl = "https://www.jefit.com" ++ trim s ∧ StripsTo s (trim s)) := by
  refine ⟨extract card, results_get? context i card hcard, ?_, ?_⟩
  · intro h hh
    refine ⟨?_, stripsTo_trim h⟩
    rw [extract_url, hh]
    rfl
  · intro img s himg hs
    refine ⟨?_, stripsTo_trim s⟩
    rw [extract_imageUrl]
    cases hl : card.descendants.filter imageSelector.selects with
    | nil => rw [hl] at himg; simp at himg
    | cons a t =>
      rw [hl] at himg
      simp only [List.head?_cons, Option.some.injEq] at himg
      subst himg
      simp only [JQuery.attr, hs]
      rfl

/-- The card with `href="/exercise/123"` gets the url
`https://www.jefit.com/exercise/123`, and its image source ` /img/1.png ` is trimmed. -/
theorem url_fields_are_origin_plus_trimmed_attribute_witness :
    (query sampleContext.document cardSelector).get? 0 = some benchCard ∧
    benchCard.getAttribute "href" = some "/exercise/123" ∧
    ∃ r, (pageFunction sampleContext).results.get? 0 = some r ∧
      r.url = "https://www.jefit.com/exercise/123" ∧
      r.imageUrl = "https://www.jefit.com/img/1.png" := by
  obtain ⟨r, hr, hurl, himg⟩ :=
    url_fields_are_origin_plus_trimmed_attribute sampleContext 0 benchCard rfl
  refine ⟨rfl, rfl, r, hr, ?_, ?_⟩
  · rw [(hurl "/exercise/123" rfl).1]
    decide
  · rw [(himg (.element "img" [] [("src", " /img/1.png ")] []) " /img/1.png " rfl rfl).1]
    decide

/-- C3, as stated, fails: the record of a card with no `img` has the imageUrl
`https://www.jefit.comundefined`, which is not `https://www.jefit.com undefined`. -/
theorem imageUrl_without_img_has_no_space :
    (∀ n ∈ bareCard.descendants, imageSelector.selects n = false) ∧
    (query bareContext.document cardSelector) = [bareCard] ∧
    (pageFunction bareContext).results.map Record.imageUrl = ["https://www.jefit.comundefined"] ∧
    (pageFunction bareContext).results.map Record.imageUrl ≠ ["https://www.jefit.com undefined"] :=
  ⟨by decide, rfl, by decide, by decide⟩

/-- C3, amended: the record of a card with no `img` descendant is produced and
its imageUrl is the origin directly followed by the text `undefined`, with no
space between them. -/
theorem imageUrl_without_img (context : Context) (i : Nat) (card : Node)
    (hcard : (query context.document cardSelector).get? i = some card)
    (himg : ∀ n ∈ card.descendants, imageSelector.selects n = false) :
    ∃ r, (pageFunction context).results.get? i = some r ∧
      r.imageUrl = "https://www.jefit.comundefined" := by
  refine ⟨extract card, results_get? context i card hcard, ?_⟩
  have hnil : card.descendants.filter imageSelector.selects = [] := by
    rw [List.filter_eq_nil_iff]
    intro n hn
    simp [himg n hn]
  rw [extract_imageUrl, hnil]
  decide

/-- The bare card has no `img` and its imageUrl is `https://www.jefit.comundefined`. -/
theorem imageUrl_without_img_witness :
    (query bareContext.document cardSelector).get? 0 = some bareCard ∧
    (∀ n ∈ bareCard.descendants, imageSelector.selects n = false) ∧
    ∃ r, (pageFunction bareContext).results.get? 0 = some r ∧
      r.imageUrl = "https://www.jefit.comundefined" :=
  ⟨rfl, by decide, imageUrl_without_img bareContext 0 bareCard rfl (by decide)⟩

/-- C4: when the label spans of a card are `s0`, `s1` and any others after
them, muscleGroup is the trimmed text of `s0` and equipment the trimmed text
of `s1`, whatever the texts are. -/
theorem labels_are_positional (context : Context) (i : Nat) (card s0 s1 : Node)
    (others : List Node)
    (hcard : (query context.document cardSelector).get? i = some card)
    (hspans : card.descendants.filter labelSelector.selects = s0 :: s1 :: others) :
    ∃ r, (pageFunction context).results.get? i = some r ∧
      r.muscleGroup = trim s0.textContent ∧ r.equipment = trim s1.textContent := by
  refine ⟨extract card, results_get? context i card hcard, ?_, ?_⟩
  · rw [extract_muscleGroup, hspans]
    simp [JQuery.eq, JQuery.text, textContents_singleton]
  · rw [extract_equipment, hspans]
    simp [JQuery.eq, JQuery.text, textContents_singleton]

/-- The spans `Chest`, `Barbell` and `Beginner` give the muscle group `Chest`
and the equipment `Barbell`. -/
theorem labels_are_positional_witness :
    (query sampleContext.document cardSelector).get? 0 = some benchCard ∧
    ((benchCard.descendants.filter labelSelector.selects).map Node.textContent =
      ["Chest", "Barbell", "Beginner"]) ∧
    ∃ r, (pageFunction sampleContext).results.get? 0 = some r ∧
      r.muscleGroup = "Chest" ∧ r.equipment = "Barbell" := by
  obtain ⟨r, hr, hm, he⟩ := labels_are_positional sampleContext 0 benchCard
    (.element "span" ["text-base/6"] [] [.text "Chest"])
    (.element "span" ["text-base/6"] [] [.text "Barbell"])
    [.element "span" ["text-base/6"] [] [.text "Beginner"]] rfl rfl
  refine ⟨rfl, by decide, r, hr, ?_, ?_⟩
  · rw [hm]; decide
  · rw [he]; decide

/-- C5: when a card has a descendant matching the title selector, exerciseName
is the text content of the first of them, stripped of its leading and trailing
white space and otherwise unchanged. -/
theorem exerciseName_is_trimmed_first_title (context : Context) (i : Nat) (card title : Node)
    (hcard : (query context.document cardSelector).get? i = some card)
    (htitle : (card.descendants.filter titleSelector.selects).head? = some title) :
    ∃ r, (pageFunction context).results.get? i = some r ∧
      r.exerciseName = trim title.textContent ∧ StripsTo title.textContent r.exerciseName := by
  have hname : (extract card).exerciseName = trim title.textContent := by
    rw [extract_exerciseName]
    cases hl : card.descendants.filter titleSelector.selects with
    | nil => rw [hl] at htitle; simp at htitle
    | cons a t =>
      rw [hl] at htitle
      simp only [List.head?_cons, Option.some.injEq] at htitle
      subst htitle
      simp [textContents_singleton]
  refine ⟨extract card, results_get? context i card hcard, hname, ?_⟩
  rw [hname]
  exact stripsTo_trim _

/-- The title text `  Bench Press  ` gives the exercise name `Bench Press`. -/
theorem exerciseName_is_trimmed_first_title_witness :
    (query sampleContext.document cardSelector).get? 0 = some benchCard ∧
    ((benchCard.descendants.filter titleSelector.selects).map Node.textContent =
      ["  Bench Press  "]) ∧
    ∃ r, (pageFunction sampleContext).results.get? 0 = some r ∧
      r.exerciseName = "Bench Press" := by
  obtain ⟨r, hr, hn, _⟩ := exerciseName_is_trimmed_first_title sampleContext 0 benchCard
    (.element "p" ["text-xl/6"] [] [.text "  Bench Press  "]) rfl rfl
  refine ⟨rfl, by decide, r, hr, ?_⟩
  rw [hn]; decide

/-- C6: every field of every returned record is a trimmed string, a fixed
point of `trim` with no leading and no trailing white space, whatever the
page holds. -/
theorem record_fields_are_trimmed (context : Context) (r : Record)
    (hr : r ∈ (pageFunction context).results) :
    (trim r.url = r.url ∧ isTrimmed r.url = true) ∧
    (trim r.exerciseName = r.exerciseName ∧ isTrimmed r.exerciseName = true) ∧
    (trim r.muscleGroup = r.muscleGroup ∧ isTrimmed r.muscleGroup = true) ∧
    (trim r.equipment = r.equipment ∧ isTrimmed r.equipment = true) ∧
    (trim r.description = r.description ∧ isTrimmed r.description = true) ∧
    (trim r.imageUrl = r.imageUrl ∧ isTrimmed r.imageUrl = true) := by
  have both : ∀ s : String, isTrimmed s = true → trim s = s ∧ isTrimmed s = true :=
    fun s h => ⟨trim_eq_self_of_isTrimmed s h, h⟩
  rw [pageFunction_eq] at hr
  obtain ⟨card, -, rfl⟩ := List.mem_map.mp hr
  refine ⟨both _ ?_, both _ ?_, both _ ?_, both _ ?_, both _ ?_, both _ ?_⟩
  · rw [extract_url]; exact isTrimmed_plus _
  · rw [extract_exerciseName]; exact isTrimmed_trim _
  · rw [extract_muscleGroup]; exact isTrimmed_trim _
  · rw [extract_equipment]; exact isTrimmed_trim _
  · rw [extract_description]; exact isTrimmed_trim _
  · rw [extract_imageUrl]; exact isTrimmed_plus _

/-- The record of the bare card, where every attribute and sub-element is
missing, has trimmed fields. -/
theorem record_fields_are_trimmed_witness :
    extract bareCard ∈ (pageFunction bareContext).results ∧
    (trim (extract bareCard).url = (extract bareCard).url ∧
      isTrimmed (extract bareCard).imageUrl = true) :=
  have h : extract bareCard ∈ (pageFunction bareContext).results := by decide
  ⟨h, (record_fields_are_trimmed bareContext (extract bareCard) h).1.1,
    (record_fields_are_trimmed bareContext (extract bareCard) h).2.2.2.2.2.2⟩

/-- C7, as stated, fails: a card with the two description paragraphs
`Stand up.` and `Sit down.` gets the description `Stand up.Sit down.`, which
is the trimmed text of neither paragraph. -/
theorem description_joins_two_paragraphs :
    (query squatContext.document cardSelector) = [squatCard] ∧
    (squatCard.descendants.filter descriptionSelector.selects).map Node.textContent =
      ["Stand up.", "Sit down."] ∧
    (pageFunction squatContext).results.map Record.description = ["Stand up.Sit down."] ∧
    ¬ ∃ p ∈ squatCard.descendants.filter descriptionSelector.selects,
      trim p.textContent = "Stand up.Sit down." :=
  ⟨rfl, by decide, by decide, by decide⟩

/-- C7, amended: when the paragraphs of a card matching the description
selector are `p` and then `more`, in document order, the description is the
trimmed concatenation of the text contents of all of them; when `p` is the
only one, it is the trimmed text of `p`. -/
theorem description_is_trimmed_joined_text (context : Context) (i : Nat) (card p : Node)
    (more : List Node)
    (hcard : (query context.document cardSelector).get? i = some card)
    (hps : card.descendants.filter descriptionSelector.selects = p :: more) :
    ∃ r, (pageFunction context).results.get? i = some r ∧
      r.description =
        trim (((p :: more).map Node.textContent).foldr (fun t acc => t ++ acc) "") ∧
      (more = [] → r.description = trim p.textContent) := by
  have hjoin : ∀ l : List Node,
      textContents l = (l.map Node.textContent).foldr (fun t acc => t ++ acc) "" := by
    intro l
    induction l with
    | nil => rfl
    | cons a t ih => simp [textContents, ih]
  refine ⟨extract card, results_get? context i card hcard, ?_, ?_⟩
  · rw [extract_description, hps, hjoin]
  · intro hmore
    rw [extract_description, hps, hmore, textContents_singleton]

/-- The description of the squat card joins its two paragraphs. -/
theorem description_is_trimmed_joined_text_witness :
    (query squatContext.document cardSelector).get? 0 = some squatCard ∧
    (squatCard.descendants.filter descriptionSelector.selects).map Node.textContent =
      ["Stand up.", "Sit down."] ∧
    ∃ r, (pageFunction squatContext).results.get? 0 = some r ∧
      r.description = "Stand up.Sit down." := by
  obtain ⟨r, hr, hd, _⟩ := description_is_trimmed_joined_text squatContext 0 squatCard
    (.element "p" ["text-sm/5"] [] [.text "Stand up."])
    [.element "p" ["text-sm/5"] [] [.text "Sit down."]] rfl rfl
  refine ⟨rfl, by decide, r, hr, ?_⟩
  rw [hd]; decide

/-- C8: a call on a page with `N` cards emits `N + 1` lines: first
`SCRAPING PAGE: ` with the request URL, which is there before any card is
processed, then for each `i < N` the line `Done for URL: ` with the url of the
`i`-th returned record; after `k` cards, `k + 1` lines have been emitted. -/
theorem log_lines (context : Context) (N : Nat)
    (hN : (query context.document cardSelector).length = N) :
    ∃ lines, (pageFunction context).log = context.log ++ lines ∧
      lines.length = N + 1 ∧
      lines.get? 0 = some ("SCRAPING PAGE: " ++ context.url) ∧
      (∀ i, i < N → ∃ r, (pageFunction context).results.get? i = some r ∧
        lines.get? (i + 1) = some ("Done for URL: " ++ r.url)) ∧
      (∀ k, k ≤ N → (after context k).results = (pageFunction context).results.take k ∧
        (after context k).log = context.log ++ lines.take (k + 1)) ∧
      after context N = pageFunction context := by
  refine ⟨("SCRAPING PAGE: " ++ context.url) ::
    (query context.document cardSelector).map (fun c => "Done for URL: " ++ (extract c).url),
    ?_, ?_, ?_, ?_, ?_, ?_⟩
  · rw [pageFunction_eq]
  · simp [hN]
  · rfl
  · intro i hi
    have hlt : i < (query context.document cardSelector).length := hN ▸ hi
    refine ⟨extract ((query context.document cardSelector).get ⟨i, hlt⟩),
      results_get? context i _ (List.get?_eq_get hlt), ?_⟩
    simp [List.get?_eq_getElem?, List.getElem?_eq_getElem hlt]
  · intro k _
    rw [after_eq, pageFunction_eq]
    simp [List.map_take]
  · rw [after_eq, pageFunction_eq, ← hN, List.take_length]

/-- The call on the sample page, which has two cards, emits three lines. -/
theorem log_lines_witness :
    (query sampleContext.document cardSelector).length = 2 ∧
    (pageFunction sampleContext).log =
      ["SCRAPING PAGE: https://www.jefit.com/exercises",
       "Done for URL: https://www.jefit.com/exercise/123",
       "Done for URL: https://www.jefit.comundefined"] ∧
    ∃ lines, (pageFunction sampleContext).log = sampleContext.log ++ lines ∧
      lines.length = 2 + 1 := by
  obtain ⟨lines, hl, hlen, -⟩ := log_lines sampleContext 2 rfl
  exact ⟨rfl, by decide, lines, hl, hlen⟩

/-- C9: the returned records depend on the document only: two calls on the
same document return equal arrays whatever the request URLs and the loggers,
also when the second call runs after the first on the same logger; the request
URL changes nothing but the first emitted line. -/
theorem results_depend_on_document_only (document : List Node) (url₁ url₂ : String)
    (log₁ log₂ : List String) :
    (pageFunction ⟨document, url₁, log₁⟩).results = (pageFunction ⟨document, url₂, log₂⟩).results ∧
    (pageFunction ⟨document, url₂, (pageFunction ⟨document, url₁, log₁⟩).log⟩).results =
      (pageFunction ⟨document, url₁, log₁⟩).results ∧
    (pageFunction ⟨document, url₁, log₁⟩).log.drop (log₁.length + 1) =
      (pageFunction ⟨document, url₂, log₂⟩).log.drop (log₂.length + 1) ∧
    (pageFunction ⟨document, url₁, log₁⟩).log.take log₁.length = log₁ := by
  have e : ∀ (u : String) (l : List String), pageFunction ⟨document, u, l⟩ =
      { log := l ++ ("SCRAPING PAGE: " ++ u) ::
          (query document cardSelector).map (fun c => "Done for URL: " ++ (extract c).url),
        results := (query document cardSelector).map extract } :=
    fun u l => pageFunction_eq ⟨document, u, l⟩
  refine ⟨?_, ?_, ?_, ?_⟩
  · rw [e, e]
  · rw [e, e]
  · rw [e, e]
    simp only [List.drop_append, List.drop_succ_cons, List.drop_zero]
  · rw [e]
    simp

/-- C10: a record is produced for every card, and in it a missing title gives
the exerciseName `""`, a missing description paragraph the description `""`,
fewer than two label spans the equipment `""`, and no label span the
muscleGroup `""` too. -/
theorem missing_text_elements_give_empty_strings (context : Context) (i : Nat) (card : Node)
    (hcard : (query context.document cardSelector).get? i = some card) :
    ∃ r, (pageFunction context).results.get? i = some r ∧
      ((∀ n ∈ card.descendants, titleSelector.selects n = false) → r.exerciseName = "") ∧
      ((∀ n ∈ card.descendants, descriptionSelector.selects n = false) → r.description = "") ∧
      ((card.descendants.filter labelSelector.selects).length < 2 → r.equipment = "") ∧
      ((∀ n ∈ card.descendants, labelSelector.selects n = false) →
        r.muscleGroup = "" ∧ r.equipment = "") := by
  have hnil : ∀ sel : Selector, (∀ n ∈ card.descendants, sel.selects n = false) →
      card.descendants.filter sel.selects = [] := by
    intro sel h
    rw [List.filter_eq_nil_iff]
    intro n hn
    simp [h n hn]
  refine ⟨extract card, results_get? context i card hcard, ?_, ?_, ?_, ?_⟩
  · intro h
    rw [extract_exerciseName, hnil _ h]
    decide
  · intro h
    rw [extract_description, hnil _ h]
    decide
  · intro h
    rw [extract_equipment]
    have hnone : (card.descendants.filter labelSelector.selects).get? 1 = none :=
      List.get?_eq_none.mpr (by omega)
    simp only [JQuery.eq, hnone]
    decide
  · intro h
    rw [extract_muscleGroup, extract_equipment, hnil _ h]
    decide

/-- The bare card, which has no sub-element, gets a record with empty text fields. -/
theorem missing_text_elements_give_empty_strings_witness :
    (query bareContext.document cardSelector).get? 0 = some bareCard ∧
    (∀ n ∈ bareCard.descendants, titleSelector.selects n = false) ∧
    (∀ n ∈ bareCard.descendants, descriptionSelector.selects n = false) ∧
    (∀ n ∈ bareCard.descendants, labelSelector.selects n = false) ∧
    ∃ r, (pageFunction bareContext).results.get? 0 = some r ∧
      r.exerciseName = "" ∧ r.description = "" ∧ r.muscleGroup = "" ∧ r.equipment = "" := by
  obtain ⟨r, hr, hn, hd, _, hl⟩ :=
    missing_text_elements_give_empty_strings bareContext 0 bareCard rfl
  exact ⟨rfl, by decide, by decide, by decide, r, hr, hn (by decide), hd (by decide),
    (hl (by decide)).1, (hl (by decide)).2⟩

end Gymwise
